import Mathlib

/-!
# Verification of the issue-synchronization pipeline
(`src/ingestion/aws_fetch_issue.py`, `src/ingestion/fetch_projects.py`)

Shallow embedding of the pagination loop, the retry/backoff loop of
`fetch_issues_for_project`, the changelog analyzers
(`get_days_in_current_status`, `status_transition_log`), the timetracking /
`updated`-timestamp normalization inside `process_all_issues`, the
entry-point validation of `process_all_issues`, and the project-listing
loop `fetch_all_project_details`.

Machine integers are modelled as `Nat`/`Int`; the HTTP endpoint is
modelled as a function from the request parameter (`startAt` or the call
index) to an outcome; the event loop, logging and sleeping are dropped
(sleep *durations* are recorded where a claim is about them).
-/

namespace JiraSync

/-! ## Configuration (`class Config`, `aws_fetch_issue.py`) -/

namespace Config

def MAX_RETRIES : Nat := 3
def MAX_RESULTS_PER_REQUEST : Nat := 50
def RATE_LIMIT_MAX_RETRIES : Nat := 10
def BASE_RETRY_DELAY : Nat := 1

end Config

/-! ## Pagination loop of `process_all_issues` (lines 471-612)

A page response is modelled by the number of issues in its `issues` list
and its reported `total`.  The endpoint is a function from `startAt` to
the page it returns.  The `while True` loop is embedded with explicit
fuel; `none` means the fuel ran out before the loop's own exit
conditions fired (the real loop would still be running). -/

structure PageResult where
  issues : Nat
  total : Nat
deriving DecidableEq, Repr

/-- The per-project `while True` loop of `process_all_issues`:
fetch a page at `startAt`; if `issues` is empty, break; otherwise
process the issues, advance `startAt` by `len(issues)` and break when
`startAt >= total_for_project`.  Returns `(page calls made, final
startAt)`; the final `startAt` equals the number of issues yielded when
starting from 0. -/
def processProjectPages (fetch : Nat → PageResult) : Nat → Nat → Option (Nat × Nat)
  | 0, _ => none
  | fuel + 1, startAt =>
    let r := fetch startAt
    if r.issues = 0 then
      some (1, startAt)
    else
      let startAt' := startAt + r.issues
      if r.total ≤ startAt' then
        some (1, startAt')
      else
        (processProjectPages fetch fuel startAt').map (fun p => (p.1 + 1, p.2))

/-- Cumulative issue count after `k` page calls, starting at offset 0:
call `k` is made at `startAt = pageCum fetch k`. -/
def pageCum (fetch : Nat → PageResult) : Nat → Nat
  | 0 => 0
  | k + 1 => pageCum fetch k + (fetch (pageCum fetch k)).issues

/-- The loop's exit condition as observed on call `k` (0-based): the page
returned zero items, or the cumulative count after the call reaches the
`total` that this page reported. -/
def stopAt (fetch : Nat → PageResult) (k : Nat) : Prop :=
  (fetch (pageCum fetch k)).issues = 0 ∨
    (fetch (pageCum fetch k)).total ≤ pageCum fetch (k + 1)

instance (fetch : Nat → PageResult) (k : Nat) : Decidable (stopAt fetch k) := by
  unfold stopAt; infer_instance

/-- Fake endpoint: pages of sizes [50, 50, 20] with reported total 120. -/
def fetchPages505020 : Nat → PageResult := fun s =>
  if s = 0 then ⟨50, 120⟩
  else if s = 50 then ⟨50, 120⟩
  else if s = 100 then ⟨20, 120⟩
  else ⟨0, 120⟩

/-- Fake endpoint: reported total 50 but the first page is already empty. -/
def fetchEmptyFirst : Nat → PageResult := fun _ => ⟨0, 50⟩

/-! ## Retry loop of `fetch_issues_for_project` (lines 246-387)

One call to `fetch_issues_for_project` makes a sequence of HTTP
requests; the environment is modelled by the list of outcomes those
requests would produce, in order.  `connError` and `timeoutError`
stand for `ClientConnectionError` and `asyncio.TimeoutError` (and the
generic `except Exception` branch, which runs the same retry logic).
The loop's result is `(returned page, requests made, sleep durations in
order)`; `none` means the outcome list was exhausted while the loop
still wanted to make another request.  On every exit path other than a
200 response the function returns the empty page
`{"issues": [], "total": 0}`, never raising. -/

inductive FetchOutcome where
  | http (code : Nat) (retryAfter : Option Nat) (payload : PageResult)
  | connError
  | timeoutError
deriving DecidableEq, Repr

/-- The `{"issues": [], "total": 0}` fallback result. -/
def emptyPage : PageResult := ⟨0, 0⟩

/-- The `while attempt < config.MAX_RETRIES` loop of
`fetch_issues_for_project`, with the two counters `attempt` and
`rate_limit_attempts` as arguments.  429 sleeps for the `Retry-After`
header value (default 5) and retries without touching `attempt`;
≥ 500 and connection/timeout errors increment `attempt` and sleep
`BASE_RETRY_DELAY * 2^(attempt-1)` before retrying (or break when the
budget is spent); other 4xx break immediately; 200 returns the payload;
any other code breaks. -/
def fetchIssuesLoop : List FetchOutcome → Nat → Nat → Option (PageResult × Nat × List Nat)
  | responses, attempt, rla =>
    if attempt < Config.MAX_RETRIES then
      match responses with
      | [] => none
      | r :: rest =>
        match r with
        | .http code retryAfter payload =>
          if code = 429 then
            if Config.RATE_LIMIT_MAX_RETRIES < rla + 1 then
              some (emptyPage, 1, [])
            else
              (fetchIssuesLoop rest attempt (rla + 1)).map
                (fun t => (t.1, t.2.1 + 1, retryAfter.getD 5 :: t.2.2))
          else if 500 ≤ code then
            if attempt + 1 < Config.MAX_RETRIES then
              (fetchIssuesLoop rest (attempt + 1) rla).map
                (fun t => (t.1, t.2.1 + 1,
                  Config.BASE_RETRY_DELAY * 2 ^ (attempt + 1 - 1) :: t.2.2))
            else
              some (emptyPage, 1, [])
          else if 400 ≤ code then
            some (emptyPage, 1, [])
          else if code = 200 then
            some (payload, 1, [])
          else
            some (emptyPage, 1, [])
        | .connError | .timeoutError =>
          if attempt + 1 < Config.MAX_RETRIES then
            (fetchIssuesLoop rest (attempt + 1) rla).map
              (fun t => (t.1, t.2.1 + 1,
                Config.BASE_RETRY_DELAY * 2 ^ (attempt + 1 - 1) :: t.2.2))
          else
            some (emptyPage, 1, [])
    else
      some (emptyPage, 0, [])

/-- A 500 response (payload irrelevant on non-200 outcomes). -/
def serverErr : FetchOutcome := .http 500 none emptyPage

/-- Concrete successful payload used in witnesses. -/
def examplePayload : PageResult := ⟨7, 7⟩

/-! ## Timestamps

`aws_fetch_issue.py` parses provider timestamps with
`datetime.strptime` under the formats `"%Y-%m-%dT%H:%M:%S.%f%z"` (with
sub-second precision) and `"%Y-%m-%dT%H:%M:%S%z"` (without).  The model
below implements those two formats for zero-padded fields, `%f` as one
to six fraction digits, and `%z` as `Z`, `±HHMM` or `±HH:MM` with the
offset strictly below 24 hours — the documented shape of the formats
and the shape of every timestamp the provider emits.  An aware datetime
is reduced to an absolute microsecond count (`toEpochMicros`) so that
Python's `(a - b).days` is `(aμ - bμ).fdiv 86400000000`, and
`datetime.isoformat()` is reproduced by `DateTime.isoformat`. -/

structure DateTime where
  year : Nat
  month : Nat
  day : Nat
  hour : Nat
  minute : Nat
  second : Nat
  micro : Nat
  offMin : Int
deriving DecidableEq, Repr

/-- Read exactly `n` decimal digits into an accumulator. -/
def readDigits : Nat → Nat → List Char → Option (Nat × List Char)
  | 0, acc, cs => some (acc, cs)
  | n + 1, acc, c :: cs =>
    if c.isDigit then readDigits n (acc * 10 + (c.toNat - 48)) cs else none
  | _ + 1, _, [] => none

/-- Read up to `n` more decimal digits greedily (for `%f`), returning
the count read, the value, and the rest. -/
def readFracDigits : Nat → Nat → Nat → List Char → Nat × Nat × List Char
  | 0, k, acc, cs => (k, acc, cs)
  | n + 1, k, acc, cs =>
    match cs with
    | c :: cs' =>
      if c.isDigit then readFracDigits n (k + 1) (acc * 10 + (c.toNat - 48)) cs'
      else (k, acc, cs)
    | [] => (k, acc, cs)

/-- `%z`: `Z`, `±HHMM` or `±HH:MM`; CPython requires the absolute
offset to be strictly less than 24 hours. -/
def readOffset (cs : List Char) : Option (Int × List Char) :=
  match cs with
  | [] => none
  | c :: rest =>
    if c = 'Z' then some (0, rest)
    else if c = '+' ∨ c = '-' then
      match readDigits 2 0 rest with
      | none => none
      | some (hh, rest2) =>
        let rest3 := match rest2 with
          | ':' :: r => r
          | r => r
        match readDigits 2 0 rest3 with
        | none => none
        | some (mm, rest4) =>
          let total : Nat := hh * 60 + mm
          if total < 1440 then
            some (if c = '-' then -(total : Int) else (total : Int), rest4)
          else none
    else none

def isLeapYear (y : Nat) : Bool := y % 4 = 0 && (y % 100 ≠ 0 || y % 400 = 0)

def daysInMonth (y m : Nat) : Nat :=
  if m = 2 then (if isLeapYear y then 29 else 28)
  else if m = 4 ∨ m = 6 ∨ m = 9 ∨ m = 11 then 30
  else 31

/-- `YYYY-MM-DDTHH:MM:SS` with the range checks `datetime(...)`
performs. -/
def readDateTimeCore (cs : List Char) :
    Option (Nat × Nat × Nat × Nat × Nat × Nat × List Char) :=
  match readDigits 4 0 cs with
  | none => none
  | some (y, cs) =>
    match cs with
    | '-' :: cs =>
      match readDigits 2 0 cs with
      | none => none
      | some (mo, cs) =>
        match cs with
        | '-' :: cs =>
          match readDigits 2 0 cs with
          | none => none
          | some (d, cs) =>
            match cs with
            | 'T' :: cs =>
              match readDigits 2 0 cs with
              | none => none
              | some (h, cs) =>
                match cs with
                | ':' :: cs =>
                  match readDigits 2 0 cs with
                  | none => none
                  | some (mi, cs) =>
                    match cs with
                    | ':' :: cs =>
                      match readDigits 2 0 cs with
                      | none => none
                      | some (s, cs) =>
                        if 1 ≤ y ∧ 1 ≤ mo ∧ mo ≤ 12 ∧ 1 ≤ d ∧
                            d ≤ daysInMonth y mo ∧ h ≤ 23 ∧ mi ≤ 59 ∧ s ≤ 59 then
                          some (y, mo, d, h, mi, s, cs)
                        else none
                    | _ => none
                | _ => none
            | _ => none
        | _ => none
    | _ => none

/-- `strptime(s, "%Y-%m-%dT%H:%M:%S.%f%z")`. -/
def parseTimestampFrac (s : String) : Option DateTime :=
  match readDateTimeCore s.data with
  | none => none
  | some (y, mo, d, h, mi, sec, cs) =>
    match cs with
    | '.' :: cs =>
      match readFracDigits 6 0 0 cs with
      | (0, _, _) => none
      | (k, v, cs) =>
        match readOffset cs with
        | some (off, []) => some ⟨y, mo, d, h, mi, sec, v * 10 ^ (6 - k), off⟩
        | _ => none
    | _ => none

/-- `strptime(s, "%Y-%m-%dT%H:%M:%S%z")`. -/
def parseTimestampNoFrac (s : String) : Option DateTime :=
  match readDateTimeCore s.data with
  | none => none
  | some (y, mo, d, h, mi, sec, cs) =>
    match readOffset cs with
    | some (off, []) => some ⟨y, mo, d, h, mi, sec, 0, off⟩
    | _ => none

/-- The try/except cascade of `get_days_in_current_status` lines
190-194: first the `.%f` format, then the format without sub-second
precision. -/
def parseTimestampEither (s : String) : Option DateTime :=
  match parseTimestampFrac s with
  | some dt => some dt
  | none => parseTimestampNoFrac s

/-- Days from 1970-01-01 of a proleptic Gregorian civil date. -/
def daysFromCivil (y m d : Int) : Int :=
  let y' := if m ≤ 2 then y - 1 else y
  let era := Int.fdiv y' 400
  let yoe := y' - era * 400
  let doy := (153 * (if 2 < m then m - 3 else m + 9) + 2) / 5 + d - 1
  let doe := yoe * 365 + yoe / 4 - yoe / 100 + doy
  era * 146097 + doe - 719468

/-- Absolute UTC time of an aware datetime, in microseconds since the
epoch. -/
def DateTime.toEpochMicros (t : DateTime) : Int :=
  (daysFromCivil t.year t.month t.day * 86400
      + t.hour * 3600 + t.minute * 60 + t.second) * 1000000
    + t.micro - t.offMin * 60000000

/-- Microseconds per day; `timedelta.days` is the floor quotient by
this. -/
def microsPerDay : Int := 86400000000

def padNum (width n : Nat) : String :=
  let s := toString n
  String.mk (List.replicate (width - s.length) '0') ++ s

/-- Offset suffix of `datetime.isoformat()`: `±HH:MM`. -/
def offsetSuffix (m : Int) : String :=
  (if m < 0 then "-" else "+") ++ padNum 2 (m.natAbs / 60) ++ ":" ++
    padNum 2 (m.natAbs % 60)

/-- `datetime.isoformat()`: microseconds are printed (six digits) only
when non-zero. -/
def DateTime.isoformat (t : DateTime) : String :=
  padNum 4 t.year ++ "-" ++ padNum 2 t.month ++ "-" ++ padNum 2 t.day ++ "T" ++
    padNum 2 t.hour ++ ":" ++ padNum 2 t.minute ++ ":" ++ padNum 2 t.second ++
    (if t.micro = 0 then "" else "." ++ padNum 6 t.micro) ++
    offsetSuffix t.offMin

/-! ## Changelog analyzers (lines 118-139 and 162-209)

A changelog is the provider's `{"histories": [...]}` object; each
history has a `created` timestamp and an `items` list whose entries
carry `field` / `fromString` / `toString` (each possibly absent).
`Changelog.malformed` is the "not a dict" case that
`get_days_in_current_status` rejects up front. -/

structure ChangeItem where
  field : Option String
  fromString : Option String
  toString : Option String
deriving DecidableEq, Repr

structure History where
  created : Option String
  items : List ChangeItem
deriving DecidableEq, Repr

inductive Changelog where
  | malformed
  | dict (histories : List History)
deriving DecidableEq, Repr

/-- The `days_in_current_status` half of the result: an integer day
count, or the `"Unknown"` sentinel. -/
inductive DaysInStatus where
  | days (n : Int)
  | unknown
deriving DecidableEq, Repr

/-- Inner `for item in items` loop of `get_days_in_current_status`:
the first item with `field == "status"` and `toString == current_status`
whose history timestamp parses yields the result; a matching item whose
timestamp fails to parse is logged and scanning continues. -/
def scanItems (nowMicros : Int) (created currentStatus : String) :
    List ChangeItem → Option (Option String × DaysInStatus)
  | [] => none
  | it :: rest =>
    if it.field = some "status" ∧ it.toString = some currentStatus then
      match parseTimestampEither created with
      | some dt =>
        some (some dt.isoformat,
          .days (Int.fdiv (nowMicros - dt.toEpochMicros) microsPerDay))
      | none => scanItems nowMicros created currentStatus rest
    else scanItems nowMicros created currentStatus rest

/-- Outer `for history in reversed(histories)` loop: histories without
a (non-empty) `created` timestamp are skipped. -/
def scanHistories (nowMicros : Int) (currentStatus : String) :
    List History → Option String × DaysInStatus
  | [] => (none, .unknown)
  | h :: rest =>
    match h.created with
    | none => scanHistories nowMicros currentStatus rest
    | some ts =>
      if ts = "" then scanHistories nowMicros currentStatus rest
      else
        match scanItems nowMicros ts currentStatus h.items with
        | some r => r
        | none => scanHistories nowMicros currentStatus rest

/-- `get_days_in_current_status(changelog, current_status)` (lines
162-209).  `nowMicros` stands for `datetime.now(timezone.utc)`. -/
def get_days_in_current_status (nowMicros : Int) (cl : Changelog)
    (currentStatus : String) : Option String × DaysInStatus :=
  match cl with
  | .malformed => (none, .unknown)
  | .dict hs => scanHistories nowMicros currentStatus hs.reverse

/-- The single record `status_transition_log` builds from a history and
a status item. -/
structure StatusChange where
  created : Option String
  fromString : Option String
  toString : Option String
deriving DecidableEq, Repr

/-- First item with `field == "status"` in one history's `items`. -/
def findFirstStatusItem : List ChangeItem → Option ChangeItem
  | [] => none
  | it :: rest =>
    if it.field = some "status" then some it else findFirstStatusItem rest

/-- `status_transition_log(changelog)` (lines 118-139): forward scan
over `histories`, returning the very first status change wrapped in a
single-element list, or `None`. -/
def status_transition_log : List History → Option (List StatusChange)
  | [] => none
  | h :: rest =>
    match findFirstStatusItem h.items with
    | some it => some [⟨h.created, it.fromString, it.toString⟩]
    | none => status_transition_log rest

/-! ## `updated` timestamp normalization (lines 546-560) -/

/-- Lines 546-560 of `process_all_issues`: `updated_inactivity_days`
defaults to `None`; when `fields["updated"]` is a non-empty string it is
parsed with the single format `"%Y-%m-%dT%H:%M:%S.%f%z"`, and on
success `max((now - updated).days, 0)` is stored; any parse failure is
logged and leaves `None`. -/
def updatedInactivityDays (nowMicros : Int) (updatedStr : Option String) :
    Option Int :=
  match updatedStr with
  | none => none
  | some s =>
    if s = "" then none
    else
      match parseTimestampFrac s with
      | none => none
      | some dt =>
        some (max (Int.fdiv (nowMicros - dt.toEpochMicros) microsPerDay) 0)

/-! ## Timetracking normalization (lines 532-541) -/

structure Timetracking where
  originalEstimate : Option String
  remainingEstimate : Option String
  timeSpent : Option String
deriving DecidableEq, Repr

/-- `fields.get('timetracking', {})` as seen by the normalizer:
absent key, present-but-not-a-dict (reset to `{}` with a warning), or a
dict of optional sub-fields. -/
inductive TimetrackingField where
  | absent
  | malformed
  | obj (t : Timetracking)
deriving DecidableEq, Repr

/-- Lines 532-541: `originalEstimate` and `remainingEstimate` are read
with `.get(...)` and **no default** (`None` when missing), while
`timeSpent` is read with default `'0h'`. -/
def extractTimetracking (raw : TimetrackingField) :
    Option String × Option String × String :=
  let tt : Timetracking :=
    match raw with
    | .obj t => t
    | _ => ⟨none, none, none⟩
  (tt.originalEstimate, tt.remainingEstimate, tt.timeSpent.getD "0h")

/-! ## Entry validation of `process_all_issues` (lines 418-460) and
`fetch_all_project_details` (lines 134-240) -/

/-- `bson.ObjectId(user_id)` accepts a string exactly when it is 24
hexadecimal characters; anything else raises `InvalidId`. -/
def isValidObjectId (s : String) : Bool :=
  s.length = 24 && s.data.all (fun c => c.isDigit ||
    ('a' ≤ c && c ≤ 'f') || ('A' ≤ c && c ≤ 'F'))

structure UserDoc where
  jira_email : String
  jira_api_key : String
  jira_domain : String
deriving DecidableEq, Repr

/-- `"...".rstrip('/')`. -/
def rstripSlash (s : String) : String :=
  String.mk (s.data.reverse.dropWhile (fun c => c = '/')).reverse

structure ProjectRef where
  key : String
  name : String
deriving DecidableEq, Repr

/-- Entry logic of `process_all_issues` (lines 418-460): an invalid
ObjectId or a failed credential lookup (document missing, or missing
credential keys, which raise and are caught the same way) returns the
`None` sentinel before any network call; an empty `base_url` returns
`(0, 0)` before any network call; otherwise the team-field discovery
and project listing run (network), and an absent/empty project list
returns `(0, 0)`.  The second component records whether any network
fetch was attempted. -/
def processAllIssuesEntry (user_id : String) (findOne : Option UserDoc)
    (projectsDetails : Option (List ProjectRef))
    (runProjects : List ProjectRef → Nat × Nat) :
    Option (Nat × Nat) × Bool :=
  if !isValidObjectId user_id then (none, false)
  else
    match findOne with
    | none => (none, false)
    | some doc =>
      let base_url := rstripSlash doc.jira_domain
      if base_url = "" then (some (0, 0), false)
      else
        match projectsDetails with
        | none => (some (0, 0), true)
        | some [] => (some (0, 0), true)
        | some ps => (some (runProjects ps), true)

/-- One page outcome of the project listing: a successful
`{"values": [...], "total": n}` response, or a terminal failure
(authentication / permission / non-retryable API error / exhausted
retries) propagated out of `fetch_projects` as an exception. -/
inductive ProjPage where
  | ok (values : List (Option String × Option String)) (total : Nat)
  | err
deriving DecidableEq, Repr

def page_max_results : Nat := 50

/-- `if key and name: all_project_details.append(...)`: both fields
present and non-empty (Python truthiness). -/
def extractProjects (values : List (Option String × Option String)) :
    List ProjectRef :=
  values.filterMap (fun p =>
    match p with
    | (some k, some n) => if k ≠ "" ∧ n ≠ "" then some ⟨k, n⟩ else none
    | _ => none)

/-- The `while True` loop of `fetch_all_project_details` (lines
200-240) with its surrounding try/except: a page that fails terminally
makes the whole function return `[]`, whatever `acc` already holds;
otherwise values are accumulated, `page_start_at` advances by
`page_max_results`, and the loop stops on an empty page or when
`page_start_at >= total`. -/
def fetchProjectsLoop (pages : Nat → ProjPage) :
    Nat → Nat → List ProjectRef → Option (List ProjectRef)
  | 0, _, _ => none
  | fuel + 1, startAt, acc =>
    match pages startAt with
    | .err => some []
    | .ok values total =>
      if values = [] then some acc
      else
        let acc' := acc ++ extractProjects values
        let startAt' := startAt + page_max_results
        if total ≤ startAt' then some acc'
        else fetchProjectsLoop pages fuel startAt' acc'

def fetch_all_project_details (pages : Nat → ProjPage) (fuel : Nat) :
    Option (List ProjectRef) :=
  fetchProjectsLoop pages fuel 0 []

/-! ## Concrete inputs used by the claims -/

/-- Changelog of the spec's scenario: status Open→"In Progress" at T1 =
2025-01-01T10:00:00.000+0000 (sub-second format), then
"In Progress"→Done at T2 = 2025-03-05T08:30:00+0000 (format without
sub-second precision). -/
def exampleHistories : List History :=
  [⟨some "2025-01-01T10:00:00.000+0000",
     [⟨some "status", some "Open", some "In Progress"⟩]⟩,
   ⟨some "2025-03-05T08:30:00+0000",
     [⟨some "status", some "In Progress", some "Done"⟩]⟩]

/-- A fixed `now`: 2025-03-10T00:00:00+00:00. -/
def exampleNow : Int :=
  DateTime.toEpochMicros ⟨2025, 3, 10, 0, 0, 0, 0, 0⟩

/-- Project-listing endpoint whose first page succeeds with one project
and reported total 120, and whose second page fails terminally. -/
def examplePages : Nat → ProjPage := fun s =>
  if s = 0 then .ok [(some "P1", some "One")] 120 else .err

theorem processProjectPages_eq_of_stop (fetch : Nat → PageResult) :
    ∀ (fuel j k : Nat), j ≤ k → k - j < fuel →
    (∀ i, j ≤ i → i < k → ¬ stopAt fetch i) → stopAt fetch k →
    processProjectPages fetch fuel (pageCum fetch j) =
      some (k - j + 1, pageCum fetch (k + 1)) := by
  intro fuel
  induction fuel with
  | zero => intro j k _ h; omega
  | succ fuel ih =>
    intro j k hjk hfuel hmin hstop
    rcases eq_or_lt_of_le hjk with rfl | hlt
    · rcases hstop with h0 | htot
      · simp [processProjectPages, h0, pageCum, Nat.sub_self]
      · rw [processProjectPages]
        by_cases h0 : (fetch (pageCum fetch j)).issues = 0
        · simp [h0, pageCum, Nat.sub_self]
        · have htot' : (fetch (pageCum fetch j)).total ≤
              pageCum fetch j + (fetch (pageCum fetch j)).issues := by
            simpa [pageCum] using htot
          simp [h0, htot', Nat.sub_self, pageCum]
    · have hns : ¬ stopAt fetch j := hmin j le_rfl hlt
      rw [stopAt, not_or] at hns
      obtain ⟨h0, htot⟩ := hns
      rw [processProjectPages]
      have htot' : ¬ (fetch (pageCum fetch j)).total ≤
          pageCum fetch j + (fetch (pageCum fetch j)).issues := by
        simpa [pageCum] using htot
      have hrec : processProjectPages fetch fuel (pageCum fetch (j + 1)) =
          some (k - (j + 1) + 1, pageCum fetch (k + 1)) := by
        exact ih (j + 1) k hlt (by omega)
          (fun i h1 h2 => hmin i (by omega) h2) hstop
      have hrec' : processProjectPages fetch fuel
          (pageCum fetch j + (fetch (pageCum fetch j)).issues) =
          some (k - (j + 1) + 1, pageCum fetch (k + 1)) := by
        simpa [pageCum] using hrec
      simp only [h0, htot', if_false, hrec', Option.map_some']
      have h2 : k - (j + 1) + 1 + 1 = k - j + 1 := by omega
      rw [h2]

/-- **C1.** The per-project pagination loop stops exactly at the first
call `k` on which the page is empty or the cumulative fetched count
reaches the page's reported `total`: it makes `k + 1` page calls and
yields `pageCum fetch (k+1)` issues.  Instantiated by its witness on
pages [50,50,20]/total 120 (3 calls, 120 issues) and on an empty first
page with total 50 (1 call, 0 issues). -/
theorem pagination_stops_at_first_exhaustion
    (fetch : Nat → PageResult) (fuel k : Nat)
    (hmin : ∀ i, i < k → ¬ stopAt fetch i) (hstop : stopAt fetch k)
    (hfuel : k < fuel) :
    processProjectPages fetch fuel 0 = some (k + 1, pageCum fetch (k + 1)) := by
  have h := processProjectPages_eq_of_stop fetch fuel 0 k (Nat.zero_le k)
    (by omega) (fun i _ h2 => hmin i h2) hstop
  simpa [pageCum] using h

/-- Witness for C1: both spec scenarios, derived from the theorem. -/
theorem pagination_stops_at_first_exhaustion_witness :
    processProjectPages fetchPages505020 4 0 = some (3, 120) ∧
    processProjectPages fetchEmptyFirst 2 0 = some (1, 0) := by
  constructor
  · have h := pagination_stops_at_first_exhaustion fetchPages505020 4 2
      (by decide) (by decide) (by decide)
    simpa using h
  · have h := pagination_stops_at_first_exhaustion fetchEmptyFirst 2 0
      (by omega) (by decide) (by decide)
    simpa using h

theorem backoff_range_succ (a m : Nat) :
    (List.range (m + 1)).map
        (fun i => Config.BASE_RETRY_DELAY * 2 ^ (a + i)) =
      Config.BASE_RETRY_DELAY * 2 ^ a ::
        (List.range m).map
          (fun i => Config.BASE_RETRY_DELAY * 2 ^ (a + 1 + i)) := by
  rw [List.range_succ_eq_map, List.map_cons, List.map_map]
  refine congrArg₂ _ (by rw [Nat.add_zero]) (List.map_congr_left ?_)
  intro i _
  have h : a + (i + 1) = a + 1 + i := by omega
  simp [Function.comp, Nat.succ_eq_add_one, h]

theorem fetchIssuesLoop_server_then_ok (n : Nat) :
    ∀ (attempt rla : Nat) (ra : Option Nat) (payload : PageResult)
      (rest : List FetchOutcome),
    attempt + n + 1 ≤ Config.MAX_RETRIES →
    fetchIssuesLoop
        (List.replicate n serverErr ++ FetchOutcome.http 200 ra payload :: rest)
        attempt rla =
      some (payload, n + 1,
        (List.range n).map (fun i => Config.BASE_RETRY_DELAY * 2 ^ (attempt + i))) := by
  induction n with
  | zero =>
    intro attempt rla ra payload rest h
    have ha : attempt < Config.MAX_RETRIES := by
      simp only [Config.MAX_RETRIES] at h ⊢; omega
    rw [List.replicate, List.nil_append, fetchIssuesLoop.eq_def]
    simp [ha]
  | succ n ih =>
    intro attempt rla ra payload rest h
    have ha : attempt < Config.MAX_RETRIES := by
      simp only [Config.MAX_RETRIES] at h ⊢; omega
    have ha1 : attempt + 1 < Config.MAX_RETRIES := by
      simp only [Config.MAX_RETRIES] at h ⊢; omega
    have hrec := ih (attempt + 1) rla ra payload rest
      (by simp only [Config.MAX_RETRIES] at h ⊢; omega)
    rw [List.replicate_succ, List.cons_append, fetchIssuesLoop.eq_def]
    simp only [serverErr] at hrec ⊢
    simp [ha, ha1, hrec, backoff_range_succ]

theorem fetchIssuesLoop_server_exhaust (n : Nat) :
    ∀ (attempt rla : Nat) (rest : List FetchOutcome),
    attempt + n + 1 = Config.MAX_RETRIES →
    fetchIssuesLoop (List.replicate (n + 1) serverErr ++ rest) attempt rla =
      some (emptyPage, n + 1,
        (List.range n).map (fun i => Config.BASE_RETRY_DELAY * 2 ^ (attempt + i))) := by
  induction n with
  | zero =>
    intro attempt rla rest h
    have ha : attempt < Config.MAX_RETRIES := by
      simp only [Config.MAX_RETRIES] at h ⊢; omega
    have ha1 : ¬ attempt + 1 < Config.MAX_RETRIES := by
      simp only [Config.MAX_RETRIES] at h ⊢; omega
    rw [List.replicate_succ, List.replicate, List.cons_append, List.nil_append,
      fetchIssuesLoop.eq_def]
    simp [serverErr, ha, ha1]
  | succ n ih =>
    intro attempt rla rest h
    have ha : attempt < Config.MAX_RETRIES := by
      simp only [Config.MAX_RETRIES] at h ⊢; omega
    have ha1 : attempt + 1 < Config.MAX_RETRIES := by
      simp only [Config.MAX_RETRIES] at h ⊢; omega
    have hrec := ih (attempt + 1) rla rest
      (by simp only [Config.MAX_RETRIES] at h ⊢; omega)
    rw [List.replicate_succ, List.cons_append, fetchIssuesLoop.eq_def]
    simp only [serverErr] at hrec ⊢
    simp [ha, ha1, hrec, backoff_range_succ]

theorem fetchIssuesLoop_429_then_ok (n : Nat) :
    ∀ (attempt rla : Nat) (ra : Option Nat) (payload : PageResult)
      (rest : List FetchOutcome),
    attempt < Config.MAX_RETRIES →
    rla + n ≤ Config.RATE_LIMIT_MAX_RETRIES →
    fetchIssuesLoop
        (List.replicate n (FetchOutcome.http 429 ra emptyPage) ++
          FetchOutcome.http 200 none payload :: rest) attempt rla =
      some (payload, n + 1, List.replicate n (ra.getD 5)) := by
  induction n with
  | zero =>
    intro attempt rla ra payload rest ha _
    rw [List.replicate, List.nil_append, fetchIssuesLoop.eq_def]
    simp [ha]
  | succ n ih =>
    intro attempt rla ra payload rest ha hr
    have hr1 : ¬ Config.RATE_LIMIT_MAX_RETRIES < rla + 1 := by
      simp only [Config.RATE_LIMIT_MAX_RETRIES] at hr ⊢; omega
    have hrec := ih attempt (rla + 1) ra payload rest ha
      (by simp only [Config.RATE_LIMIT_MAX_RETRIES] at hr ⊢; omega)
    rw [List.replicate_succ, List.cons_append, fetchIssuesLoop.eq_def]
    simp [ha, hr1, hrec, List.replicate_succ]

theorem fetchIssuesLoop_429_exhaust (n : Nat) :
    ∀ (attempt rla : Nat) (ra : Option Nat) (rest : List FetchOutcome),
    attempt < Config.MAX_RETRIES →
    rla + n + 1 = Config.RATE_LIMIT_MAX_RETRIES + 1 →
    fetchIssuesLoop
        (List.replicate (n + 1) (FetchOutcome.http 429 ra emptyPage) ++ rest)
        attempt rla =
      some (emptyPage, n + 1, List.replicate n (ra.getD 5)) := by
  induction n with
  | zero =>
    intro attempt rla ra rest ha h
    have hr1 : Config.RATE_LIMIT_MAX_RETRIES < rla + 1 := by
      simp only [Config.RATE_LIMIT_MAX_RETRIES] at h ⊢; omega
    rw [List.replicate_succ, List.replicate, List.cons_append, List.nil_append,
      fetchIssuesLoop.eq_def]
    simp [ha, hr1]
  | succ n ih =>
    intro attempt rla ra rest ha h
    have hr1 : ¬ Config.RATE_LIMIT_MAX_RETRIES < rla + 1 := by
      simp only [Config.RATE_LIMIT_MAX_RETRIES] at h ⊢; omega
    have hrec := ih attempt (rla + 1) ra rest ha
      (by simp only [Config.RATE_LIMIT_MAX_RETRIES] at h ⊢; omega)
    rw [List.replicate_succ, List.cons_append] at hrec
    rw [List.replicate_succ, List.cons_append, fetchIssuesLoop.eq_def]
    simp [ha, hr1, hrec, List.replicate_succ]

/-- **C2.** Server errors (HTTP ≥ 500) and connection/timeout errors
retry with delay `BASE_RETRY_DELAY * 2^(attempt-1)` under the shared
budget of `MAX_RETRIES = 3` attempts: (a) `n` server errors followed by
a 200 succeed on attempt `n+1` when the budget allows, with delays
`BASE * 2^0, …, BASE * 2^(n-1)`; (b) three straight server errors
exhaust the budget (3 requests, then the empty page); (c) a connection
error followed by a 500 and then a 200 succeeds on the 3rd attempt —
the two error kinds share the one budget; (d) each successive backoff
delay is exactly twice the previous one. -/
theorem retry_backoff_server_errors :
    (∀ (n : Nat) (ra : Option Nat) (payload : PageResult)
       (rest : List FetchOutcome), n + 1 ≤ Config.MAX_RETRIES →
      fetchIssuesLoop
          (List.replicate n serverErr ++ FetchOutcome.http 200 ra payload :: rest)
          0 0 =
        some (payload, n + 1,
          (List.range n).map (fun i => Config.BASE_RETRY_DELAY * 2 ^ i))) ∧
    (∀ rest : List FetchOutcome,
      fetchIssuesLoop (List.replicate 3 serverErr ++ rest) 0 0 =
        some (emptyPage, 3,
          [Config.BASE_RETRY_DELAY * 2 ^ 0, Config.BASE_RETRY_DELAY * 2 ^ 1])) ∧
    fetchIssuesLoop
        [FetchOutcome.connError, serverErr,
          FetchOutcome.http 200 none examplePayload] 0 0 =
      some (examplePayload, 3, [1, 2]) ∧
    (∀ i : Nat, Config.BASE_RETRY_DELAY * 2 ^ (i + 1) =
      2 * (Config.BASE_RETRY_DELAY * 2 ^ i)) := by
  refine ⟨?_, ?_, by decide, ?_⟩
  · intro n ra payload rest h
    simpa using fetchIssuesLoop_server_then_ok n 0 0 ra payload rest (by omega)
  · intro rest
    have h := fetchIssuesLoop_server_exhaust 2 0 0 rest (by decide)
    simpa using h
  · intro i
    simp [Config.BASE_RETRY_DELAY, pow_succ]
    ring

/-- Witness for C2: the spec's [500, 500, 200] sequence, from part (a)
of the theorem: success on the 3rd attempt, delays 1 then 2 (the second
at least twice the first). -/
theorem retry_backoff_server_errors_witness :
    fetchIssuesLoop [serverErr, serverErr,
        FetchOutcome.http 200 none examplePayload] 0 0 =
      some (examplePayload, 3, [1, 2]) ∧ (2 : Nat) ≥ 2 * 1 := by
  have h := retry_backoff_server_errors.1 2 none examplePayload [] (by decide)
  refine ⟨?_, by omega⟩
  simpa [List.replicate] using h

/-- **C3.** HTTP 429 sleeps for the `Retry-After` value (5 when the
header is absent, `ra = none`) and retries under the separate
`RATE_LIMIT_MAX_RETRIES = 10` budget without touching the main
3-attempt counter: (a) any `n ≤ 10` consecutive 429s followed by a 200
still succeed, with `n` sleeps of `ra.getD 5`; (b) an 11th consecutive
429 exhausts the separate budget and yields the empty page after 11
requests and 10 sleeps. -/
theorem rate_limit_separate_budget :
    (∀ (n : Nat) (ra : Option Nat) (payload : PageResult)
       (rest : List FetchOutcome), n ≤ Config.RATE_LIMIT_MAX_RETRIES →
      fetchIssuesLoop
          (List.replicate n (FetchOutcome.http 429 ra emptyPage) ++
            FetchOutcome.http 200 none payload :: rest) 0 0 =
        some (payload, n + 1, List.replicate n (ra.getD 5))) ∧
    (∀ (ra : Option Nat) (rest : List FetchOutcome),
      fetchIssuesLoop
          (List.replicate (Config.RATE_LIMIT_MAX_RETRIES + 1)
            (FetchOutcome.http 429 ra emptyPage) ++ rest) 0 0 =
        some (emptyPage, Config.RATE_LIMIT_MAX_RETRIES + 1,
          List.replicate Config.RATE_LIMIT_MAX_RETRIES (ra.getD 5))) := by
  constructor
  · intro n ra payload rest h
    exact fetchIssuesLoop_429_then_ok n 0 0 ra payload rest (by decide) (by omega)
  · intro ra rest
    exact fetchIssuesLoop_429_exhaust Config.RATE_LIMIT_MAX_RETRIES 0 0 ra rest
      (by decide) (by omega)

/-- Witness for C3: ten 429s without a `Retry-After` header followed by
a 200 — success on the 11th request with ten default 5-second sleeps,
even though ten exceeds the main 3-attempt budget. -/
theorem rate_limit_separate_budget_witness :
    fetchIssuesLoop
        (List.replicate 10 (FetchOutcome.http 429 none emptyPage) ++
          [FetchOutcome.http 200 none examplePayload]) 0 0 =
      some (examplePayload, 11, List.replicate 10 5) := by
  have h := rate_limit_separate_budget.1 10 none examplePayload []
    (by decide)
  simpa using h

/-- **C4.** Every status in 400–499 other than 429 breaks out of the
retry loop on the first attempt: exactly one request, no sleeps, and
the empty-page result `{"issues": [], "total": 0}` is returned to the
caller (never an exception), whatever outcomes would have followed. -/
theorem client_error_no_retry (code : Nat) (ra : Option Nat)
    (payload : PageResult) (rest : List FetchOutcome)
    (h4 : 400 ≤ code) (h5 : code < 500) (h429 : code ≠ 429) :
    fetchIssuesLoop (FetchOutcome.http code ra payload :: rest) 0 0 =
      some (emptyPage, 1, []) := by
  have h5' : ¬ 500 ≤ code := by omega
  rw [fetchIssuesLoop.eq_def]
  simp [h4, h5', h429, Config.MAX_RETRIES]

/-- Witness for C4: a 404 makes exactly one attempt and surfaces the
empty result immediately, even with a 200 queued up behind it. -/
theorem client_error_no_retry_witness :
    fetchIssuesLoop
        [FetchOutcome.http 404 none examplePayload,
          FetchOutcome.http 200 none examplePayload] 0 0 =
      some (emptyPage, 1, []) :=
  client_error_no_retry 404 none examplePayload
    [FetchOutcome.http 200 none examplePayload]
    (by decide) (by decide) (by decide)

theorem scanItems_eq_none (now : Int) (created cs : String) :
    ∀ items : List ChangeItem,
    (∀ it ∈ items, ¬ (it.field = some "status" ∧ it.toString = some cs)) →
    scanItems now created cs items = none := by
  intro items
  induction items with
  | nil => intro _; rfl
  | cons it rest ih =>
    intro h
    have h1 := h it (List.mem_cons_self it rest)
    rw [scanItems, if_neg h1]
    exact ih (fun x hx => h x (List.mem_cons_of_mem it hx))

theorem scanHistories_eq_unknown (now : Int) (cs : String) :
    ∀ l : List History,
    (∀ h ∈ l, ∀ it ∈ h.items,
      ¬ (it.field = some "status" ∧ it.toString = some cs)) →
    scanHistories now cs l = (none, DaysInStatus.unknown) := by
  intro l
  induction l with
  | nil => intro _; rfl
  | cons h rest ih =>
    intro hl
    have hrest := ih (fun x hx => hl x (List.mem_cons_of_mem h hx))
    have hitems := hl h (List.mem_cons_self h rest)
    rw [scanHistories]
    match hc : h.created with
    | none => exact hrest
    | some ts =>
      by_cases hts : ts = ""
      · simp [hts, hrest]
      · simp [hts, scanItems_eq_none now ts cs h.items hitems, hrest]

/-- **C5.** `get_days_in_current_status` scans the changelog most
recent first and returns, for the first status entry whose `toString`
is the current status, the parsed timestamp re-serialized with
`isoformat()` together with `(now - timestamp).days`; a malformed
(non-dict) changelog or a changelog with no such entry yields the
defined fallback `(None, "Unknown")`.  For the spec's scenario —
Open→"In Progress" at T1, "In Progress"→"Done" at T2, current status
"Done" — it returns `(T2 as ISO string, floor((now − T2).days))`. -/
theorem days_in_current_status_reverse_scan :
    (∀ (now : Int) (cs : String),
      get_days_in_current_status now Changelog.malformed cs =
        (none, DaysInStatus.unknown)) ∧
    (∀ (now : Int) (cs : String) (hs : List History),
      (∀ h ∈ hs, ∀ it ∈ h.items,
        ¬ (it.field = some "status" ∧ it.toString = some cs)) →
      get_days_in_current_status now (Changelog.dict hs) cs =
        (none, DaysInStatus.unknown)) ∧
    get_days_in_current_status exampleNow (Changelog.dict exampleHistories)
        "Done" =
      (some "2025-03-05T08:30:00+00:00",
        DaysInStatus.days (Int.fdiv
          (exampleNow - DateTime.toEpochMicros ⟨2025, 3, 5, 8, 30, 0, 0, 0⟩)
          microsPerDay)) := by
  refine ⟨fun _ _ => rfl, ?_, by decide⟩
  intro now cs hs h
  rw [get_days_in_current_status]
  exact scanHistories_eq_unknown now cs hs.reverse
    (fun x hx => h x (List.mem_reverse.mp hx))

/-- Witness for C5: the malformed-changelog and no-matching-entry
fallbacks at concrete inputs, via the theorem. -/
theorem days_in_current_status_reverse_scan_witness :
    get_days_in_current_status exampleNow Changelog.malformed "Done" =
      (none, DaysInStatus.unknown) ∧
    get_days_in_current_status exampleNow
        (Changelog.dict [⟨some "2025-01-01T10:00:00.000+0000",
          [⟨some "status", some "Open", some "In Progress"⟩]⟩]) "Done" =
      (none, DaysInStatus.unknown) := by
  refine ⟨days_in_current_status_reverse_scan.1 exampleNow "Done", ?_⟩
  exact days_in_current_status_reverse_scan.2.1 exampleNow "Done" _ (by decide)

theorem findFirstStatusItem_eq_none :
    ∀ items : List ChangeItem,
    (∀ it ∈ items, it.field ≠ some "status") →
    findFirstStatusItem items = none := by
  intro items
  induction items with
  | nil => intro _; rfl
  | cons it rest ih =>
    intro h
    rw [findFirstStatusItem, if_neg (h it (List.mem_cons_self it rest))]
    exact ih (fun x hx => h x (List.mem_cons_of_mem it hx))

/-- **C6.** `status_transition_log` scans histories in original
forward order and returns the first status item verbatim (the
history's `created`, the item's `fromString`/`toString`) wrapped in a
single-element list, or `None` when no status item exists: for the
spec's changelog it returns the Open→"In Progress" entry, not the
later one; histories containing no status item are skipped without
affecting the result. -/
theorem first_status_transition_forward_scan :
    status_transition_log exampleHistories =
      some [⟨some "2025-01-01T10:00:00.000+0000", some "Open",
        some "In Progress"⟩] ∧
    (∀ hs : List History,
      (∀ h ∈ hs, ∀ it ∈ h.items, it.field ≠ some "status") →
      status_transition_log hs = none) ∧
    (∀ (pre hs : List History),
      (∀ h ∈ pre, ∀ it ∈ h.items, it.field ≠ some "status") →
      status_transition_log (pre ++ hs) = status_transition_log hs) := by
  refine ⟨by decide, ?_, ?_⟩
  · intro hs h
    induction hs with
    | nil => rfl
    | cons x rest ih =>
      rw [status_transition_log,
        findFirstStatusItem_eq_none x.items (h x (List.mem_cons_self x rest))]
      exact ih (fun y hy => h y (List.mem_cons_of_mem x hy))
  · intro pre hs h
    induction pre with
    | nil => rfl
    | cons x rest ih =>
      rw [List.cons_append, status_transition_log,
        findFirstStatusItem_eq_none x.items (h x (List.mem_cons_self x rest))]
      exact ih (fun y hy => h y (List.mem_cons_of_mem x hy))

/-- Witness for C6: a leading history with only a priority change does
not alter the result, and a changelog without status items yields
`None`; both via the theorem. -/
theorem first_status_transition_forward_scan_witness :
    status_transition_log
        ([⟨some "2024-12-01T00:00:00.000+0000",
          [⟨some "priority", some "Low", some "High"⟩]⟩] ++ exampleHistories) =
      status_transition_log exampleHistories ∧
    status_transition_log
        [⟨some "2024-12-01T00:00:00.000+0000",
          [⟨some "priority", some "Low", some "High"⟩]⟩] = none := by
  constructor
  · exact first_status_transition_forward_scan.2.2 _ exampleHistories (by decide)
  · exact first_status_transition_forward_scan.2.1 _ (by decide)

/-- Counterexample to C7: when the `timetracking` object is absent the
normalizer emits `original_estimate = None` and
`remaining_estimate = None` — no `"N/A"` sentinel — so the normalized
record does carry null-valued fields; only `time_logged` gets the
`'0h'` default. -/
theorem timetracking_defaults_counterexample :
    extractTimetracking TimetrackingField.absent = (none, none, "0h") ∧
    extractTimetracking TimetrackingField.malformed = (none, none, "0h") := by
  exact ⟨rfl, rfl⟩

/-- **C7 (amended).** Of the three timetracking sub-fields only
`time_logged` is defaulted (to `'0h'`) when the `timetracking` object
or the `timeSpent` key is missing or malformed; `original_estimate`
and `remaining_estimate` are read without a default and are `None`
whenever absent, and each present sub-field passes through
independently. -/
theorem timetracking_partial_defaults
    (oe re : Option String) (ts : String) :
    extractTimetracking (TimetrackingField.obj ⟨oe, re, some ts⟩) =
      (oe, re, ts) ∧
    extractTimetracking (TimetrackingField.obj ⟨oe, re, none⟩) =
      (oe, re, "0h") ∧
    extractTimetracking TimetrackingField.absent = (none, none, "0h") ∧
    extractTimetracking TimetrackingField.malformed = (none, none, "0h") :=
  ⟨rfl, rfl, rfl, rfl⟩

/-- Counterexample to C8: `"2025-03-05T08:30:00+0000"` is a valid
timestamp in the format without sub-second precision (it parses under
`"%Y-%m-%dT%H:%M:%S%z"`), yet the `updated` normalization leaves
`inactivity_days = None` instead of the claimed
`max(0, (now − updated).days) = 4`, because lines 546-560 try only the
sub-second format. -/
theorem updated_second_format_counterexample :
    parseTimestampNoFrac "2025-03-05T08:30:00+0000" =
      some ⟨2025, 3, 5, 8, 30, 0, 0, 0⟩ ∧
    updatedInactivityDays exampleNow (some "2025-03-05T08:30:00+0000") =
      none ∧
    max (Int.fdiv
      (exampleNow - DateTime.toEpochMicros ⟨2025, 3, 5, 8, 30, 0, 0, 0⟩)
      microsPerDay) 0 = 4 := by
  refine ⟨by decide, by decide, by decide⟩

/-- **C8 (amended).** The `updated` normalization accepts only the
timestamp format **with** sub-second precision: when `updated` parses
under `"%Y-%m-%dT%H:%M:%S.%f%z"`, `inactivity_days` is
`max(0, (now − updated).days)`; for every string that does not parse
under that single format (including timestamps in the
without-sub-second format) and for a missing `updated`, it is left
`None` (logged, never raised). -/
theorem updated_parsing_single_format :
    (∀ (now : Int) (s : String) (dt : DateTime),
      parseTimestampFrac s = some dt →
      updatedInactivityDays now (some s) =
        some (max (Int.fdiv (now - dt.toEpochMicros) microsPerDay) 0)) ∧
    (∀ (now : Int) (s : String),
      parseTimestampFrac s = none →
      updatedInactivityDays now (some s) = none) ∧
    (∀ now : Int, updatedInactivityDays now none = none) := by
  refine ⟨?_, ?_, fun _ => rfl⟩
  · intro now s dt h
    have hs : ¬ s = "" := by
      intro he
      rw [he] at h
      simp [parseTimestampFrac, readDateTimeCore, readDigits] at h
    rw [updatedInactivityDays, if_neg hs, h]
  · intro now s h
    rw [updatedInactivityDays]
    by_cases hs : s = ""
    · rw [if_pos hs]
    · rw [if_neg hs, h]

/-- Witness for C8 (amended): a sub-second-format timestamp 67 full
days before `now` yields `inactivity_days = 67`, via the theorem. -/
theorem updated_parsing_single_format_witness :
    updatedInactivityDays exampleNow
        (some "2025-01-01T10:00:00.000+0000") =
      some (max (Int.fdiv
        (exampleNow - DateTime.toEpochMicros ⟨2025, 1, 1, 10, 0, 0, 0, 0⟩)
        microsPerDay) 0) :=
  updated_parsing_single_format.1 exampleNow "2025-01-01T10:00:00.000+0000"
    ⟨2025, 1, 1, 10, 0, 0, 0, 0⟩ (by decide)

/-- **C9.** An invalid credential-record identifier (not a 24-hex-char
ObjectId) makes `process_all_issues` return the `None` sentinel before
any network fetch, and that sentinel is distinct from the `(0, 0)`
counts returned when the run starts successfully but finds no projects
to process. -/
theorem sync_invalid_user_id_sentinel :
    (∀ (uid : String) (findOne : Option UserDoc)
       (pd : Option (List ProjectRef))
       (run : List ProjectRef → Nat × Nat),
      isValidObjectId uid = false →
      processAllIssuesEntry uid findOne pd run = (none, false)) ∧
    (∀ (uid : String) (doc : UserDoc) (run : List ProjectRef → Nat × Nat),
      isValidObjectId uid = true →
      rstripSlash doc.jira_domain ≠ "" →
      processAllIssuesEntry uid (some doc) (some []) run =
        (some (0, 0), true)) ∧
    (none : Option (Nat × Nat)) ≠ some (0, 0) := by
  refine ⟨?_, ?_, by simp⟩
  · intro uid findOne pd run h
    simp [processAllIssuesEntry, h]
  · intro uid doc run h1 h2
    simp [processAllIssuesEntry, h1, h2]

/-- Witness for C9: a malformed identifier returns the `None` sentinel
with no fetch; a valid 24-hex identifier with credentials but an empty
project list returns `(0, 0)`; both via the theorem. -/
theorem sync_invalid_user_id_sentinel_witness :
    processAllIssuesEntry "not-an-objectid" none none (fun _ => (0, 0)) =
      (none, false) ∧
    processAllIssuesEntry "68696f783ad17ea0c39cbc65"
        (some ⟨"a@b.c", "key", "example.atlassian.net"⟩) (some [])
        (fun _ => (0, 0)) =
      (some (0, 0), true) := by
  constructor
  · exact sync_invalid_user_id_sentinel.1 "not-an-objectid" none none _
      (by decide)
  · exact sync_invalid_user_id_sentinel.2.1 "68696f783ad17ea0c39cbc65"
      ⟨"a@b.c", "key", "example.atlassian.net"⟩ _ (by decide) (by decide)

/-- **C10.** When any page of the project listing fails terminally,
`fetch_all_project_details` returns the empty list, discarding every
project detail accumulated from earlier successful pages: the loop
maps a failing page to `[]` regardless of the accumulator, and on the
concrete endpoint whose first page succeeds (one project, total 120)
and whose second page fails, the result is `[]`, not the partial
list. -/
theorem project_listing_discards_on_failure :
    (∀ (pages : Nat → ProjPage) (fuel startAt : Nat)
       (acc : List ProjectRef),
      pages startAt = ProjPage.err →
      fetchProjectsLoop pages (fuel + 1) startAt acc = some []) ∧
    fetch_all_project_details examplePages 3 = some [] := by
  constructor
  · intro pages fuel startAt acc h
    rw [fetchProjectsLoop, h]
  · decide

/-- Witness for C10: the terminal-failure clause applied at the second
page of the concrete endpoint, with a non-empty accumulator already
holding the first page's project. -/
theorem project_listing_discards_on_failure_witness :
    fetchProjectsLoop examplePages 2 50 [⟨"P1", "One"⟩] = some [] :=
  project_listing_discards_on_failure.1 examplePages 1 50 [⟨"P1", "One"⟩]
    (by decide)

end JiraSync
